import Mathlib

/-!
Verification development for the EDON CAV engine (fusion and state pipeline).

Shallow embedding of `app/engine.py`, `app/recommend.py`, `app/state_bus.py`,
`app/routes/ingest.py` and `app/routes/batch.py`.  Python floats are modelled
as rationals (`ℚ`); a possibly non-finite sample (NaN/inf) is modelled as
`Option ℚ` with `none` standing for a non-finite value; Python `int()`
truncation is modelled by `pyTrunc`.  The trained classifier and feature
standardizer are external black boxes (spec §2) and enter the embedding as
function-valued engine fields.
-/

namespace Edon

/-- The four categorical states produced by the engine. -/
inductive CState where
  | overload
  | balanced
  | focus
  | restorative
deriving DecidableEq, Repr

/-- Component breakdown returned by `cav_from_window` (the `parts` dict). -/
structure Parts where
  bio : ℚ
  env : ℚ
  circadian : ℚ
  p_stress : ℚ
deriving DecidableEq, Repr

/-- The all-zero components used on the fail-safe path. -/
def partsZero : Parts := ⟨0, 0, 0, 0⟩

/-- Python `int(x)` truncation toward zero, on the rational model of floats. -/
def pyTrunc (q : ℚ) : ℤ := if 0 ≤ q then ⌊q⌋ else -⌊-q⌋

/-- `np.clip(x, 0.0, 1.0)`. -/
def clip01 (q : ℚ) : ℚ := min (max q 0) 1

/-- `comfort_env` from `app/engine.py`: tiered environmental comfort score. -/
def comfort_env (temp_c : ℚ) (humidity : ℚ) (aqi : ℤ) : ℚ :=
  let temp_score : ℚ :=
    if 20 ≤ temp_c ∧ temp_c ≤ 24 then 1.0
    else if (18 ≤ temp_c ∧ temp_c < 20) ∨ (24 < temp_c ∧ temp_c ≤ 26) then 0.8
    else if (16 ≤ temp_c ∧ temp_c < 18) ∨ (26 < temp_c ∧ temp_c ≤ 28) then 0.6
    else 0.4
  let hum_score : ℚ :=
    if 30 ≤ humidity ∧ humidity ≤ 60 then 1.0
    else if (20 ≤ humidity ∧ humidity < 30) ∨ (60 < humidity ∧ humidity ≤ 70) then 0.8
    else if (10 ≤ humidity ∧ humidity < 20) ∨ (70 < humidity ∧ humidity ≤ 80) then 0.6
    else 0.4
  let aqi_score : ℚ :=
    if aqi ≤ 50 then 1.0
    else if aqi ≤ 100 then 0.8
    else if aqi ≤ 150 then 0.6
    else if aqi ≤ 200 then 0.4
    else if aqi ≤ 300 then 0.2
    else 0.1
  (temp_score + hum_score + aqi_score) / 3

/-- `circadian_factor` from `app/engine.py`. -/
def circadian_factor (local_hour : ℤ) : ℚ :=
  if 7 ≤ local_hour ∧ local_hour ≤ 21 then 1.0 else 0.7

/-- A sample of a physiological channel; `none` models a non-finite float. -/
abbrev Sample := Option ℚ

/-- A sensor window: the six named channels of `cav_from_window`'s input
dict, each `none` when the key is absent. -/
structure Window where
  EDA : Option (List Sample)
  TEMP : Option (List Sample)
  BVP : Option (List Sample)
  ACC_x : Option (List Sample)
  ACC_y : Option (List Sample)
  ACC_z : Option (List Sample)
deriving DecidableEq, Repr

/-- `WINDOW_LEN` from `app/engine.py`. -/
def WINDOW_LEN : ℕ := 240

/-- The six channels in the order the validation loop visits them. -/
def channelList (w : Window) : List (Option (List Sample)) :=
  [w.EDA, w.TEMP, w.BVP, w.ACC_x, w.ACC_y, w.ACC_z]

/-- The length/presence check of `cav_from_window`: every channel present
and of length `WINDOW_LEN`. -/
def presenceLengthOk (w : Window) : Bool :=
  (channelList w).all fun c =>
    match c with
    | some l => l.length = WINDOW_LEN
    | none => false

/-- `np.concatenate` of all six channels (used only after the presence
check, where every channel is present). -/
def concatSamples (w : Window) : List Sample :=
  w.EDA.getD [] ++ w.TEMP.getD [] ++ w.BVP.getD [] ++
    w.ACC_x.getD [] ++ w.ACC_y.getD [] ++ w.ACC_z.getD []

/-- Number of non-finite samples in a signal. -/
def nonFiniteCount (l : List Sample) : ℕ := (l.filter fun s => s.isNone).length

/-- The missing-data gate: `np.sum(~np.isfinite(all)) > len(all) * 0.2`,
i.e. strictly more than 20% of the concatenated samples are non-finite. -/
def missingGateFails (w : Window) : Bool :=
  5 * nonFiniteCount (concatSamples w) > (concatSamples w).length

/-- A window is invalid when it fails the presence/length check or the
missing-data gate; `cav_from_window` then takes the fail-safe path. -/
def windowInvalid (w : Window) : Bool :=
  !presenceLengthOk w || missingGateFails w

/-- The column names produced by `compute_window_features`, in insertion
order: for each of EDA, TEMP, BVP and the derived ACC-magnitude channel the
basic statistics, slope and first-difference std; spectral band powers for
BVP and ACC_mag; median and 95th percentile for EDA.  The name set is the
same for every window (missing data yields NaN values, not missing keys). -/
def producedFeatureNames : List String :=
  ["EDA_mean", "EDA_std", "EDA_min", "EDA_max", "EDA_skew", "EDA_kurtosis",
   "EDA_slope", "EDA_std_diff", "EDA_median", "EDA_p95",
   "TEMP_mean", "TEMP_std", "TEMP_min", "TEMP_max", "TEMP_skew",
   "TEMP_kurtosis", "TEMP_slope", "TEMP_std_diff",
   "BVP_mean", "BVP_std", "BVP_min", "BVP_max", "BVP_skew", "BVP_kurtosis",
   "BVP_slope", "BVP_std_diff", "BVP_power_low", "BVP_power_mid",
   "BVP_power_high",
   "ACC_mag_mean", "ACC_mag_std", "ACC_mag_min", "ACC_mag_max",
   "ACC_mag_skew", "ACC_mag_kurtosis", "ACC_mag_slope", "ACC_mag_std_diff",
   "ACC_mag_power_low", "ACC_mag_power_mid", "ACC_mag_power_high"]

/-- Fixed fusion weights set in `CAVEngine.__init__` (`self.weights`). -/
def wBio : ℚ := 0.6

/-- Fixed fusion weight for the environment component. -/
def wEnv : ℚ := 0.2

/-- Fixed fusion weight for the circadian component. -/
def wCirc : ℚ := 0.2

/-- The `CAVEngine` instance.  `featureNames` is the reference feature
schema loaded from the artifacts (`self.feature_names`); `featuresOf` models
the numeric values of `compute_window_features` (scipy statistics, an
external numeric computation); `predict` models the standardizer plus the
trained classifier (spec §2: an external black box), mapping the reindexed
feature vector to `p_stress`.  `cavPrev`, `cavSmooth` and `lastState` are
the mutable per-instance EMA and hysteresis state. -/
structure Engine where
  alpha : ℚ
  featureNames : List String
  featuresOf : Window → String → ℚ
  predict : List ℚ → ℚ
  cavPrev : Option ℤ
  cavSmooth : Option ℚ
  lastState : Option CState

/-- `CAVEngine.state_from_cav`: hysteresis state classification.  Returns
the classified state and the engine with `_last_state` updated to it. -/
def state_from_cav (e : Engine) (cav : ℤ) : CState × Engine :=
  let state :=
    match e.lastState with
    | none =>
        if cav < 3000 then CState.overload
        else if cav < 7000 then CState.balanced
        else if cav < 9000 then CState.focus
        else CState.restorative
    | some CState.overload =>
        if cav ≥ 3300 then
          if cav < 7000 then CState.balanced
          else if cav < 9000 then CState.focus
          else CState.restorative
        else CState.overload
    | some CState.balanced =>
        if cav < 2700 then CState.overload
        else if cav ≥ 7300 then
          if cav < 9000 then CState.focus else CState.restorative
        else CState.balanced
    | some CState.focus =>
        if cav < 6700 then
          if cav < 3000 then CState.overload else CState.balanced
        else if cav ≥ 9300 then CState.restorative
        else CState.focus
    | some CState.restorative =>
        if cav < 8700 then
          if cav < 7000 then
            if cav < 3000 then CState.overload else CState.balanced
          else CState.focus
        else CState.restorative
  (state, { e with lastState := some state })

/-- The quadruple returned by `cav_from_window`. -/
structure CavResult where
  raw : ℤ
  smooth : ℤ
  state : CState
  parts : Parts
deriving DecidableEq, Repr

/-- The fail-safe result of `cav_from_window` for invalid windows. -/
def failSafeResult : CavResult := ⟨0, 0, CState.overload, partsZero⟩

/-- The schema-overlap fraction computed in `cav_from_window`:
`len(overlap) / max(1, len(expected))` where `overlap` is the list of
produced column names that occur in the reference schema. -/
def overlapFrac (expected : List String) : ℚ :=
  ((producedFeatureNames.filter fun c => expected.contains c).length : ℚ) /
    (max 1 expected.length : ℕ)

/-- The reindexing step of `cav_from_window`
(`df_features.reindex(columns=self.feature_names, fill_value=0.0)`): the
feature vector in reference-schema order, missing columns filled with 0.0. -/
def reindexedVec (e : Engine) (w : Window) : List ℚ :=
  e.featureNames.map fun n =>
    if producedFeatureNames.contains n then e.featuresOf w n else 0

/-- The environmental-comfort component of `cav_from_window`: the tiered
score when all three inputs are present, else the neutral default 0.5. -/
def envComfortOf (temp_c : Option ℚ) (humidity : Option ℚ) (aqi : Option ℤ) : ℚ :=
  match temp_c, humidity, aqi with
  | some t, some h, some a => comfort_env t h a
  | _, _, _ => 0.5

/-- `CAVEngine.cav_from_window`.  Returns the result (or the schema-mismatch
`RuntimeError` as `Except.error`) together with the post-call engine.  The
environmental inputs are `None`-able as in the Python signature. -/
def cav_from_window (e : Engine) (w : Window) (temp_c : Option ℚ)
    (humidity : Option ℚ) (aqi : Option ℤ) (local_hour : ℤ) :
    Except String CavResult × Engine :=
  if ¬ presenceLengthOk w then (Except.ok failSafeResult, e)
  else if missingGateFails w then (Except.ok failSafeResult, e)
  else if overlapFrac e.featureNames < 0.8 then
    (Except.error
      "schema mismatch: insufficient overlap of expected features", e)
  else
    let p_stress := e.predict (reindexedVec e w)
    let bio_score := 1 - p_stress
    let env_comfort := envComfortOf temp_c humidity aqi
    let circ_factor := circadian_factor local_hour
    let cav_raw := wBio * bio_score + wEnv * env_comfort + wCirc * circ_factor
    let cav_clipped := clip01 cav_raw
    let cav_raw_int := pyTrunc (cav_clipped * 10000)
    let new_smooth :=
      match e.cavSmooth with
      | none => cav_clipped
      | some s => e.alpha * cav_clipped + (1 - e.alpha) * s
    let cav_smooth_int := pyTrunc (new_smooth * 10000)
    let e1 := { e with cavSmooth := some new_smooth, cavPrev := some cav_raw_int }
    let se := state_from_cav e1 cav_smooth_int
    (Except.ok ⟨cav_raw_int, cav_smooth_int, se.1,
      ⟨bio_score, env_comfort, circ_factor, p_stress⟩⟩, se.2)

/-- The clipped raw fraction (`cav_clipped`) of a successful scoring call:
the weighted fusion clipped to [0,1]. -/
def rawFrac (e : Engine) (w : Window) (temp_c : Option ℚ)
    (humidity : Option ℚ) (aqi : Option ℤ) (local_hour : ℤ) : ℚ :=
  clip01 (wBio * (1 - e.predict (reindexedVec e w)) +
    wEnv * envComfortOf temp_c humidity aqi +
    wCirc * circadian_factor local_hour)

/-- The arguments of one `cav_from_window` call. -/
structure Call where
  w : Window
  temp_c : Option ℚ
  humidity : Option ℚ
  aqi : Option ℤ
  local_hour : ℤ

/-- Thread a sequence of scoring calls through the engine state. -/
def runCalls (e : Engine) (cs : List Call) : Engine :=
  cs.foldl
    (fun acc c => (cav_from_window acc c.w c.temp_c c.humidity c.aqi c.local_hour).2) e

/-! ### Recommendation engine (`app/recommend.py`) -/

/-- One recommended action.  The dynamic parts of the Python `reason`
f-strings (embedded sensor values) are elided; no behaviour depends on
them. -/
structure Rec where
  priority : ℕ
  action : String
  ttl_ms : ℕ
deriving DecidableEq, Repr

/-- Stable insertion by priority: the new element goes before the first
element of equal or higher priority, as Python's stable `list.sort` keeps
original order among equal keys. -/
def insertByPriority (x : Rec) : List Rec → List Rec
  | [] => [x]
  | y :: ys =>
    if y.priority < x.priority then y :: insertByPriority x ys else x :: y :: ys

/-- Stable sort ascending by priority (`recs.sort(key=lambda r: r["priority"])`). -/
def sortByPriority (l : List Rec) : List Rec := l.foldr insertByPriority []

/-- `env.get(key, default) or default`: a missing key or a falsy value
(`0`) falls back to the default. -/
def envGet (v : Option ℚ) (dflt : ℚ) : ℚ :=
  match v with
  | none => dflt
  | some x => if x = 0 then dflt else x

/-- `recommend_for` from `app/recommend.py`.  The `env` dict is modelled by
its three consulted entries; `drift` is accepted and ignored as in the
source. -/
def recommend_for (state : CState) (drift : ℚ) (co2v dbav luxv : Option ℚ) :
    List Rec :=
  let _ := drift
  let co2 := envGet co2v 600
  let dba := envGet dbav 40
  let lux := envGet luxv 300
  let recs : List Rec :=
    if state = CState.overload then
      ((if co2 ≥ 900 then [Rec.mk 1 "ventilation_increase" 30000] else []) ++
       (if dba ≥ 55 then [Rec.mk 1 "reduce_noise" 20000] else []) ++
       (if lux ≥ 500 then [Rec.mk 2 "dim_lights" 20000] else []) ++
       [Rec.mk 3 "suggest_break" 60000])
    else if state = CState.focus then
      ((if 45 ≤ dba ∧ dba ≤ 55 then [Rec.mk 3 "keep_noise_stable" 20000] else []) ++
       (if 250 ≤ lux ∧ lux ≤ 450 then [Rec.mk 3 "keep_lighting" 20000] else []) ++
       [Rec.mk 4 "maintain_conditions" 15000])
    else
      [Rec.mk 4 "maintain_conditions" 15000]
  sortByPriority recs

/-! ### State bus (`app/state_bus.py`) and ingestion (`app/routes/ingest.py`) -/

/-- The state snapshot published by the ingestion path (the fields of its
payload that later reads consult: categorical state and drift). -/
structure StatePayload where
  state : CState
  drift : ℚ
deriving DecidableEq, Repr

/-- Adaptation event type. -/
inductive AdaptType where
  | overload_start
  | overload_clear
deriving DecidableEq, Repr

/-- An `AdaptEvent` emitted on a state-crossing edge. -/
structure AdaptEvent where
  type : AdaptType
  state : CState
  drift : ℚ
  recommendations : List Rec
deriving DecidableEq, Repr

/-- The two single-slot registers of `app/state_bus.py`. -/
structure Bus where
  latest_state : Option StatePayload
  latest_adapt : Option AdaptEvent
deriving DecidableEq, Repr

/-- `set_state`: overwrite the latest-state slot wholesale. -/
def set_state (b : Bus) (p : StatePayload) : Bus := { b with latest_state := some p }

/-- `get_state`: read the latest-state slot. -/
def get_state (b : Bus) : Option StatePayload := b.latest_state

/-- `set_adapt`: overwrite the latest-adaptation slot wholesale. -/
def set_adapt (b : Bus) (ev : AdaptEvent) : Bus := { b with latest_adapt := some ev }

/-- One ingestion frame: the entries of its `env` dict that the route
consults (`co2`, `dba` for averaging/drift; `lux` additionally for
recommendations).  `none` models an absent or unparsable entry. -/
structure Frame where
  co2 : Option ℚ
  dba : Option ℚ
  lux : Option ℚ
deriving DecidableEq, Repr

/-- Round half to even (Python `round` tie-breaking) to an integer. -/
def roundHalfEven (q : ℚ) : ℤ :=
  if q - ⌊q⌋ < 1/2 then ⌊q⌋
  else if q - ⌊q⌋ > 1/2 then ⌊q⌋ + 1
  else if ⌊q⌋ % 2 = 0 then ⌊q⌋ else ⌊q⌋ + 1

/-- Python `round(q, 2)`. -/
def round2 (q : ℚ) : ℚ := (roundHalfEven (q * 100) : ℚ) / 100

/-- The averaged CO2 over the batch (default 600 when no frame carries it). -/
def avgCo2 (frames : List Frame) : ℚ :=
  let vals := frames.filterMap Frame.co2
  if vals.isEmpty then 600 else vals.sum / vals.length

/-- The averaged dBA over the batch (default 40 when no frame carries it). -/
def avgDba (frames : List Frame) : ℚ :=
  let vals := frames.filterMap Frame.dba
  if vals.isEmpty then 40 else vals.sum / vals.length

/-- The drift score of `/v1/ingest`:
`round(min(1, max(0, 0.6*max(0,(co2-700)/600) + 0.4*max(0,(dba-45)/20))), 2)`. -/
def driftOf (frames : List Frame) : ℚ :=
  let drift_env := max 0 ((avgCo2 frames - 700) / 600) * 0.6 +
    max 0 ((avgDba frames - 45) / 20) * 0.4
  round2 (min 1 (max 0 drift_env))

/-- The simplified state heuristic of `/v1/ingest`. -/
def ingestState (drift : ℚ) : CState :=
  if drift > 0.6 then CState.overload
  else if drift > 0.35 then CState.focus
  else CState.balanced

/-- The `/v1/ingest` route (`app/routes/ingest.py`): reads the previous bus
state, publishes the new payload, and on a state-crossing edge builds and
publishes an `AdaptEvent`.  Returns the new bus and the emitted event, if
any. -/
def ingest (bus : Bus) (frames : List Frame) : Bus × Option AdaptEvent :=
  match frames with
  | [] => (bus, none)
  | first :: _ =>
    let prev_state := (get_state bus).map StatePayload.state
    let drift := driftOf frames
    let state := ingestState drift
    let bus1 := set_state bus ⟨state, drift⟩
    let entering := state = CState.overload ∧ prev_state ≠ some CState.overload
    let leaving := (state = CState.balanced ∨ state = CState.focus) ∧
      prev_state = some CState.overload
    if entering ∨ leaving then
      let recs := recommend_for state drift first.co2 first.dba first.lux
      let ev : AdaptEvent :=
        ⟨if state = CState.overload ∧ prev_state ≠ some CState.overload
          then AdaptType.overload_start else AdaptType.overload_clear,
         state, drift, recs⟩
      (set_adapt bus1 ev, some ev)
    else (bus1, none)

/-- A sequence of ingestion calls threaded through the bus, collecting the
emitted adaptation event (or `none`) of each call in order. -/
def ingestRun (bus : Bus) : List (List Frame) → Bus × List (Option AdaptEvent)
  | [] => (bus, [])
  | fs :: rest =>
    let r := ingest bus fs
    let tail := ingestRun r.1 rest
    (tail.1, r.2 :: tail.2)

/-! ### Batch scoring (`app/routes/batch.py`), feature-map items -/

/-- `EXPECTED` from `app/routes/batch.py`. -/
def EXPECTED : List String :=
  ["eda_mean", "eda_std", "bvp_mean", "bvp_std", "acc_mean", "acc_std"]

/-- One per-item entry of the batch response (`BatchResponseItem`). -/
structure BatchItemResult where
  ok : Bool
  error : Option String
  cav_raw : Option ℤ
  cav_smooth : Option ℤ
  state : Option CState
deriving DecidableEq, Repr

/-- Python `str.lower()` on the ASCII feature-name strings involved:
character-wise lower-casing. -/
def lowerStr (s : String) : String := String.mk (s.data.map Char.toLower)

/-- Modelled from the spec: `normalize_feature_map` lives in
`app/utils/feature_ingest.py`, which is absent from the sources; per §6 it
normalizes the keys/casing of a feature map.  Key-set model: lower-case
every key. -/
def normalize_feature_map_keys (keys : List String) : List String :=
  keys.map lowerStr

/-- The schema-overlap fraction the per-item loop of `cav_batch` computes
for a feature-map item: expected names whose lower-casing occurs among the
item's lower-cased keys, over `max(1, len(expected))`. -/
def fmapOverlapFrac (featureNames : List String) (keys : List String) : ℚ :=
  let lkeys := keys.map lowerStr
  ((featureNames.filter fun k => lkeys.contains (lowerStr k)).length : ℚ) /
    (max 1 featureNames.length : ℕ)

/-- The per-item outcome of `cav_batch` for a feature-map (non-raw) item,
lines 119–155 of `app/routes/batch.py`: below the 80% overlap threshold the
item fails with the guard error (an `HTTPException` caught by the per-item
handler in strict mode, or an explicit relaxed-guard entry); at or above the
threshold it falls through to
`raise ValueError("Feature map inference not yet supported - engine
requires raw windows")`, also caught per item. -/
def fmapItemResult (featureNames : List String) (relaxed : Bool)
    (keys : List String) : BatchItemResult :=
  if fmapOverlapFrac featureNames keys < 0.8 then
    if relaxed then
      ⟨false, some "Schema mismatch (relaxed): overlap below threshold",
        none, none, none⟩
    else
      ⟨false, some "400: Feature mismatch: overlap below 80 percent",
        none, none, none⟩
  else
    ⟨false,
      some "Feature map inference not yet supported - engine requires raw windows",
      none, none, none⟩

/-- `_guard_features_when_needed` for an all-feature-map batch: the
`EXPECTED` names missing from the first normalized feature map. -/
def guardMissing (items : List (List String)) : List String :=
  match items with
  | [] => EXPECTED
  | k0 :: _ =>
    EXPECTED.filter fun k => ¬ (normalize_feature_map_keys k0).contains k

/-- `cav_batch` restricted to a batch whose items are all feature maps
(each given by its key list), under strict/relaxed flags: empty batches are
rejected 422; with strict mode on, a first item missing any `EXPECTED` key
aborts the request 400; otherwise every item gets its per-item result. -/
def cav_batch_fmaps (featureNames : List String) (strict relaxed : Bool)
    (items : List (List String)) : Except String (List BatchItemResult) :=
  if items.isEmpty then
    Except.error "422: windows must be a non-empty list"
  else if strict ∧ guardMissing items ≠ [] then
    Except.error "400: Feature schema mismatch: missing expected features"
  else
    Except.ok (items.map (fmapItemResult featureNames relaxed))

/-! ### Spec-side reference definitions (for refinement comparisons) -/

/-- The plain (no-previous-state) thresholds of spec §4.5. -/
def plainThresholds (score : ℤ) : CState :=
  if score < 3000 then CState.overload
  else if score < 7000 then CState.balanced
  else if score < 9000 then CState.focus
  else CState.restorative

/-- The hysteresis table exactly as the spec states it (§4.5): written from
the spec text, to be compared with `state_from_cav`. -/
def specHysteresis (prev : Option CState) (score : ℤ) : CState :=
  match prev with
  | none => plainThresholds score
  | some CState.overload =>
      if score ≥ 3300 then plainThresholds score else CState.overload
  | some CState.balanced =>
      if score < 2700 then CState.overload
      else if score ≥ 7300 then
        (if score < 9000 then CState.focus else CState.restorative)
      else CState.balanced
  | some CState.focus =>
      if score < 6700 then
        (if score < 3000 then CState.overload else CState.balanced)
      else if score ≥ 9300 then CState.restorative
      else CState.focus
  | some CState.restorative =>
      if score < 8700 then plainThresholds score else CState.restorative

/-- Temperature tier exactly as the claim states it (spec §4.3). -/
def specTempScore (t : ℚ) : ℚ :=
  if 20 ≤ t ∧ t ≤ 24 then 1.0
  else if (18 ≤ t ∧ t < 20) ∨ (24 < t ∧ t ≤ 26) then 0.8
  else if (16 ≤ t ∧ t < 18) ∨ (26 < t ∧ t ≤ 28) then 0.6
  else 0.4

/-- Humidity tier exactly as the claim states it (spec §4.3). -/
def specHumScore (h : ℚ) : ℚ :=
  if 30 ≤ h ∧ h ≤ 60 then 1.0
  else if (20 ≤ h ∧ h < 30) ∨ (60 < h ∧ h ≤ 70) then 0.8
  else if (10 ≤ h ∧ h < 20) ∨ (70 < h ∧ h ≤ 80) then 0.6
  else 0.4

/-- AQI tier exactly as the claim states it (spec §4.3). -/
def specAqiScore (a : ℤ) : ℚ :=
  if a ≤ 50 then 1.0
  else if a ≤ 100 then 0.8
  else if a ≤ 150 then 0.6
  else if a ≤ 200 then 0.4
  else if a ≤ 300 then 0.2
  else 0.1

/-- Environmental comfort exactly as the claim states it: neutral 0.5 when
any input is absent, else the equal average of the three tiers. -/
def specEnvComfort (t h : Option ℚ) (a : Option ℤ) : ℚ :=
  match t, h, a with
  | some t, some h, some a => (specTempScore t + specHumScore h + specAqiScore a) / 3
  | _, _, _ => 0.5

/-! ### Concrete fixtures used by the witnesses -/

/-- A concrete engine: fresh per-instance state, default α = 0.2, a
one-name reference schema and a constant classifier. -/
def testEngine : Engine where
  alpha := 0.2
  featureNames := ["EDA_mean"]
  featuresOf := fun _ _ => 0
  predict := fun _ => 0
  cavPrev := none
  cavSmooth := none
  lastState := none

/-- A fully finite channel of the configured length. -/
def goodChannel : List Sample := List.replicate WINDOW_LEN (some 0)

/-- A valid window: all six channels present, each 240 finite samples. -/
def goodWindow : Window :=
  ⟨some goodChannel, some goodChannel, some goodChannel,
   some goodChannel, some goodChannel, some goodChannel⟩

/-- An invalid window: the EDA channel is missing. -/
def badWindow : Window :=
  ⟨none, some goodChannel, some goodChannel,
   some goodChannel, some goodChannel, some goodChannel⟩

/-! ### Shared helper lemmas -/

/-- An invalid window takes the fail-safe path: fixed result, engine
untouched. -/
theorem cav_from_window_invalid (e : Engine) (w : Window) (t h : Option ℚ)
    (a : Option ℤ) (hour : ℤ) (hw : windowInvalid w = true) :
    cav_from_window e w t h a hour = (Except.ok failSafeResult, e) := by
  unfold windowInvalid at hw
  unfold cav_from_window
  cases hp : presenceLengthOk w with
  | false => simp [hp]
  | true =>
    rw [hp] at hw
    simp only [Bool.not_true, Bool.false_or] at hw
    simp [hp, hw]

/-- A window whose every channel is present with the configured length and
whose missing-data gate passes is not invalid. -/
theorem windowInvalid_of_disj (w : Window)
    (hw : (∃ c ∈ channelList w, c = none) ∨
      (∃ l, some l ∈ channelList w ∧ l.length ≠ WINDOW_LEN) ∨
      5 * nonFiniteCount (concatSamples w) > (concatSamples w).length) :
    windowInvalid w = true := by
  rcases hw with ⟨c, hc, rfl⟩ | ⟨l, hl, hlen⟩ | hgate
  · have hp : presenceLengthOk w = false := by
      cases h : presenceLengthOk w with
      | false => rfl
      | true =>
        exfalso
        unfold presenceLengthOk at h
        have := List.all_eq_true.mp h _ hc
        simp at this
    simp [windowInvalid, hp]
  · have hp : presenceLengthOk w = false := by
      cases h : presenceLengthOk w with
      | false => rfl
      | true =>
        exfalso
        unfold presenceLengthOk at h
        have h2 := List.all_eq_true.mp h _ hl
        simp at h2
        exact hlen h2
    simp [windowInvalid, hp]
  · have hg : missingGateFails w = true := by
      simpa [missingGateFails] using hgate
    simp [windowInvalid, hg]

/-! ### Claims -/

/-- C1: for every window missing one of the six channels, or with a channel
whose length differs from 240, or whose concatenated samples are more than
20% non-finite, `cav_from_window` returns exactly raw 0, smooth 0, state
"overload" and all-zero components, without raising an error. -/
theorem C1_invalid_window_failsafe (e : Engine) (w : Window) (t h : Option ℚ)
    (a : Option ℤ) (hour : ℤ)
    (hw : (∃ c ∈ channelList w, c = none) ∨
      (∃ l, some l ∈ channelList w ∧ l.length ≠ WINDOW_LEN) ∨
      5 * nonFiniteCount (concatSamples w) > (concatSamples w).length) :
    (cav_from_window e w t h a hour).1 =
      Except.ok ⟨0, 0, CState.overload, ⟨0, 0, 0, 0⟩⟩ := by
  rw [cav_from_window_invalid e w t h a hour (windowInvalid_of_disj w hw)]
  rfl

/-- Witness for C1 at a concrete window with a missing EDA channel. -/
theorem C1_invalid_window_failsafe_witness :
    ((∃ c ∈ channelList badWindow, c = none) ∨
      (∃ l, some l ∈ channelList badWindow ∧ l.length ≠ WINDOW_LEN) ∨
      5 * nonFiniteCount (concatSamples badWindow) > (concatSamples badWindow).length) ∧
    (cav_from_window testEngine badWindow none none none 12).1 =
      Except.ok ⟨0, 0, CState.overload, ⟨0, 0, 0, 0⟩⟩ :=
  ⟨Or.inl ⟨none, by simp [channelList, badWindow], rfl⟩,
   C1_invalid_window_failsafe testEngine badWindow none none none 12
     (Or.inl ⟨none, by simp [channelList, badWindow], rfl⟩)⟩

/-- C2: `state_from_cav` implements exactly the spec's hysteresis table,
and the returned state becomes the stored previous state for the next
call. -/
theorem C2_hysteresis_table (e : Engine) (cav : ℤ) :
    (state_from_cav e cav).1 = specHysteresis e.lastState cav ∧
    (state_from_cav e cav).2.lastState = some ((state_from_cav e cav).1) := by
  refine ⟨?_, rfl⟩
  unfold state_from_cav specHysteresis plainThresholds
  cases hls : e.lastState with
  | none => simp
  | some st => cases st <;> simp <;> split_ifs <;> first | rfl | omega

/-- Unfolding step for `runCalls`. -/
theorem runCalls_cons (e : Engine) (c : Call) (cs : List Call) :
    runCalls e (c :: cs) =
      runCalls ((cav_from_window e c.w c.temp_c c.humidity c.aqi c.local_hour).2) cs := rfl

/-- `runCalls` on the empty list is the identity. -/
theorem runCalls_nil (e : Engine) : runCalls e [] = e := rfl

/-- C10: on the fail-safe path `cav_from_window` returns before touching
any engine state — the post-call engine is identical to the pre-call one
(EMA accumulator, last raw score and stored hysteresis state included) — so
threading any sequence of calls through the engine gives the same final
state as threading only its valid calls. -/
theorem C10_failsafe_leaves_state (e : Engine) (w : Window) (t h : Option ℚ)
    (a : Option ℤ) (hour : ℤ) (hw : windowInvalid w = true) :
    (cav_from_window e w t h a hour).2 = e ∧
    ∀ cs : List Call,
      runCalls e cs = runCalls e (cs.filter fun c => windowInvalid c.w = false) := by
  constructor
  · rw [cav_from_window_invalid e w t h a hour hw]
  · intro cs
    induction cs generalizing e with
    | nil => rfl
    | cons c rest ih =>
      rw [runCalls_cons]
      cases hc : windowInvalid c.w with
      | true =>
        have hstep : (cav_from_window e c.w c.temp_c c.humidity c.aqi c.local_hour).2 = e := by
          rw [cav_from_window_invalid _ _ _ _ _ _ hc]
        rw [hstep, ih]
        have hfil : ((c :: rest).filter fun x => windowInvalid x.w = false) =
            rest.filter fun x => windowInvalid x.w = false := by
          simp [List.filter_cons, hc]
        rw [hfil]
      | false =>
        have hfil : ((c :: rest).filter fun x => windowInvalid x.w = false) =
            c :: (rest.filter fun x => windowInvalid x.w = false) := by
          simp [List.filter_cons, hc]
        rw [hfil, runCalls_cons]
        exact ih _

/-- Witness for C10 at a concrete window with a missing EDA channel. -/
theorem C10_failsafe_leaves_state_witness :
    windowInvalid badWindow = true ∧
    (cav_from_window testEngine badWindow none none none 12).2 = testEngine :=
  ⟨by decide,
   (C10_failsafe_leaves_state testEngine badWindow none none none 12 (by decide)).1⟩

/-- `clip01` lands in `[0,1]`. -/
theorem clip01_mem (q : ℚ) : 0 ≤ clip01 q ∧ clip01 q ≤ 1 := by
  unfold clip01
  constructor
  · exact le_min (le_max_right q 0) (by norm_num)
  · exact min_le_right _ _

/-- A convex combination of two values in `[0,1]` stays in `[0,1]`. -/
theorem ema_mem {a c s : ℚ} (ha0 : 0 ≤ a) (ha1 : a ≤ 1) (hc0 : 0 ≤ c)
    (hc1 : c ≤ 1) (hs0 : 0 ≤ s) (hs1 : s ≤ 1) :
    0 ≤ a * c + (1 - a) * s ∧ a * c + (1 - a) * s ≤ 1 := by
  constructor <;> nlinarith

/-- Truncating a fraction in `[0,1]` scaled by 10000 gives an integer in
`[0,10000]`. -/
theorem pyTrunc_scale_bounds {q : ℚ} (h0 : 0 ≤ q) (h1 : q ≤ 1) :
    0 ≤ pyTrunc (q * 10000) ∧ pyTrunc (q * 10000) ≤ 10000 := by
  have hq : 0 ≤ q * 10000 := by positivity
  unfold pyTrunc
  rw [if_pos hq]
  refine ⟨Int.floor_nonneg.mpr hq, ?_⟩
  have hle : q * 10000 ≤ (10000 : ℚ) := by nlinarith
  calc ⌊q * 10000⌋ ≤ ⌊(10000 : ℚ)⌋ := Int.floor_mono hle
    _ = 10000 := by norm_num

/-- The EMA accumulator invariant: whenever set, it is a fraction in
`[0,1]`. -/
def smoothInv (e : Engine) : Prop :=
  ∀ s, e.cavSmooth = some s → 0 ≤ s ∧ s ≤ 1

/-- The EMA value stored by a successful scoring call: the clipped raw
fraction on the first call, the recurrence afterwards. -/
def newSmoothVal (e : Engine) (w : Window) (t h : Option ℚ) (a : Option ℤ)
    (hour : ℤ) : ℚ :=
  match e.cavSmooth with
  | none => rawFrac e w t h a hour
  | some s => e.alpha * rawFrac e w t h a hour + (1 - e.alpha) * s

/-- The engine state written by a successful scoring call before the
hysteresis update. -/
def postFusionEngine (e : Engine) (w : Window) (t h : Option ℚ) (a : Option ℤ)
    (hour : ℤ) : Engine :=
  { e with cavSmooth := some (newSmoothVal e w t h a hour),
           cavPrev := some (pyTrunc (rawFrac e w t h a hour * 10000)) }

/-- Closed form of `cav_from_window` on the successful path. -/
theorem cav_from_window_success (e : Engine) (w : Window) (t h : Option ℚ)
    (a : Option ℤ) (hour : ℤ)
    (hp : presenceLengthOk w = true) (hm : missingGateFails w = false)
    (hov : ¬ overlapFrac e.featureNames < 0.8) :
    cav_from_window e w t h a hour =
      (Except.ok
        ⟨pyTrunc (rawFrac e w t h a hour * 10000),
         pyTrunc (newSmoothVal e w t h a hour * 10000),
         (state_from_cav (postFusionEngine e w t h a hour)
            (pyTrunc (newSmoothVal e w t h a hour * 10000))).1,
         ⟨1 - e.predict (reindexedVec e w), envComfortOf t h a,
          circadian_factor hour, e.predict (reindexedVec e w)⟩⟩,
       (state_from_cav (postFusionEngine e w t h a hour)
          (pyTrunc (newSmoothVal e w t h a hour * 10000))).2) := by
  unfold cav_from_window
  rw [if_neg (by simp [hp]), if_neg (by simp [hm]), if_neg hov]
  rfl

/-- Splitting a non-invalid window into the two passing checks. -/
theorem windowValid_split {w : Window} (hw : windowInvalid w = false) :
    presenceLengthOk w = true ∧ missingGateFails w = false := by
  unfold windowInvalid at hw
  constructor
  · cases h : presenceLengthOk w with
    | true => rfl
    | false => rw [h] at hw; simp at hw
  · cases h : missingGateFails w with
    | false => rfl
    | true => rw [h] at hw; simp at hw

/-- C3: the temporal smoother is the EMA recurrence with the engine's fixed
α — a first successful scoring call stores the clipped raw fraction, every
later successful call stores `α·raw_fraction + (1−α)·previous`, the
returned smooth integer is the stored fraction scaled by 10000 and
truncated, and the accumulator persists across calls: fail-safe and
schema-mismatch calls leave it untouched, `state_from_cav` never touches
it, and no call ever clears a set accumulator. -/
theorem C3_ema_recurrence (e : Engine) (w : Window) (t h : Option ℚ)
    (a : Option ℤ) (hour : ℤ) :
    (windowInvalid w = false → ¬ overlapFrac e.featureNames < 0.8 →
      ∃ r, (cav_from_window e w t h a hour).1 = Except.ok r ∧
        (cav_from_window e w t h a hour).2.cavSmooth =
          some (newSmoothVal e w t h a hour) ∧
        (e.cavSmooth = none → newSmoothVal e w t h a hour = rawFrac e w t h a hour) ∧
        (∀ s, e.cavSmooth = some s → newSmoothVal e w t h a hour =
          e.alpha * rawFrac e w t h a hour + (1 - e.alpha) * s) ∧
        r.smooth = pyTrunc (newSmoothVal e w t h a hour * 10000)) ∧
    (windowInvalid w = true →
      (cav_from_window e w t h a hour).2.cavSmooth = e.cavSmooth) ∧
    (overlapFrac e.featureNames < 0.8 →
      (cav_from_window e w t h a hour).2.cavSmooth = e.cavSmooth) ∧
    ((cav_from_window e w t h a hour).2.cavSmooth = none → e.cavSmooth = none) ∧
    (∀ c : ℤ, ((state_from_cav e c).2).cavSmooth = e.cavSmooth) := by
  refine ⟨?succ, ?inv, ?schema, ?noreset, fun c => rfl⟩
  case succ =>
    intro hval hov
    obtain ⟨hp, hm⟩ := windowValid_split hval
    rw [cav_from_window_success e w t h a hour hp hm hov]
    refine ⟨_, rfl, rfl, ?_, ?_, rfl⟩
    · intro hn
      unfold newSmoothVal
      rw [hn]
    · intro s hs
      unfold newSmoothVal
      rw [hs]
  case inv =>
    intro hw
    rw [cav_from_window_invalid e w t h a hour hw]
  case schema =>
    intro hov
    by_cases hw : windowInvalid w = true
    · rw [cav_from_window_invalid e w t h a hour hw]
    · obtain ⟨hp, hm⟩ := windowValid_split (by
        cases hx : windowInvalid w with
        | false => rfl
        | true => exact absurd hx hw)
      unfold cav_from_window
      rw [if_neg (by simp [hp]), if_neg (by simp [hm]), if_pos hov]
  case noreset =>
    intro hnone
    by_cases hw : windowInvalid w = true
    · rw [cav_from_window_invalid e w t h a hour hw] at hnone
      exact hnone
    · obtain ⟨hp, hm⟩ := windowValid_split (by
        cases hx : windowInvalid w with
        | false => rfl
        | true => exact absurd hx hw)
      by_cases hov : overlapFrac e.featureNames < 0.8
      · unfold cav_from_window at hnone
        rw [if_neg (by simp [hp]), if_neg (by simp [hm]), if_pos hov] at hnone
        exact hnone
      · rw [cav_from_window_success e w t h a hour hp hm hov] at hnone
        simp [state_from_cav, postFusionEngine] at hnone

set_option maxRecDepth 4000 in
/-- The fixture engine's one-name schema fully overlaps the produced
features. -/
theorem testEngine_overlap : ¬ overlapFrac testEngine.featureNames < 0.8 := by
  have : overlapFrac testEngine.featureNames = 1 := by
    unfold overlapFrac testEngine
    rw [show (producedFeatureNames.filter fun c =>
      (["EDA_mean"] : List String).contains c) = ["EDA_mean"] from by decide]
    norm_num
  rw [this]
  norm_num

set_option maxRecDepth 40000 in
/-- The fixture window passes both validity checks. -/
theorem goodWindow_valid : windowInvalid goodWindow = false := by decide

/-- Witness for C3 at a fresh engine and a concrete valid window. -/
theorem C3_ema_recurrence_witness :
    windowInvalid goodWindow = false ∧
    ¬ overlapFrac testEngine.featureNames < 0.8 ∧
    ∃ r, (cav_from_window testEngine goodWindow none none none 12).1 = Except.ok r ∧
      (cav_from_window testEngine goodWindow none none none 12).2.cavSmooth =
        some (newSmoothVal testEngine goodWindow none none none 12) ∧
      (testEngine.cavSmooth = none →
        newSmoothVal testEngine goodWindow none none none 12 =
          rawFrac testEngine goodWindow none none none 12) ∧
      (∀ s, testEngine.cavSmooth = some s →
        newSmoothVal testEngine goodWindow none none none 12 =
          testEngine.alpha * rawFrac testEngine goodWindow none none none 12 +
            (1 - testEngine.alpha) * s) ∧
      r.smooth = pyTrunc (newSmoothVal testEngine goodWindow none none none 12 * 10000) := by
  exact ⟨goodWindow_valid, testEngine_overlap,
    (C3_ema_recurrence testEngine goodWindow none none none 12).1 goodWindow_valid
      testEngine_overlap⟩

/-- The stored EMA value of a successful call lies in `[0,1]` when α does
and the previous accumulator did. -/
theorem newSmoothVal_mem (e : Engine) (w : Window) (t h : Option ℚ)
    (a : Option ℤ) (hour : ℤ) (ha0 : 0 ≤ e.alpha) (ha1 : e.alpha ≤ 1)
    (hinv : smoothInv e) :
    0 ≤ newSmoothVal e w t h a hour ∧ newSmoothVal e w t h a hour ≤ 1 := by
  unfold newSmoothVal
  cases hcs : e.cavSmooth with
  | none => exact clip01_mem _
  | some s =>
    obtain ⟨hs0, hs1⟩ := hinv s hcs
    obtain ⟨hc0, hc1⟩ := clip01_mem (wBio * (1 - e.predict (reindexedVec e w)) +
      wEnv * envComfortOf t h a + wCirc * circadian_factor hour)
    exact ema_mem ha0 ha1 hc0 hc1 hs0 hs1

/-- C4: every call of `cav_from_window` that returns a result (fail-safe or
scored) yields raw and smooth integers in `[0,10000]`, for any classifier
output and any environment inputs; moreover the EMA invariant and α are
preserved, so the bound holds along any chain of calls. -/
theorem C4_scores_bounded (e : Engine) (w : Window) (t h : Option ℚ)
    (a : Option ℤ) (hour : ℤ) (ha0 : 0 ≤ e.alpha) (ha1 : e.alpha ≤ 1)
    (hinv : smoothInv e) :
    (∀ r, (cav_from_window e w t h a hour).1 = Except.ok r →
      0 ≤ r.raw ∧ r.raw ≤ 10000 ∧ 0 ≤ r.smooth ∧ r.smooth ≤ 10000) ∧
    smoothInv (cav_from_window e w t h a hour).2 ∧
    (cav_from_window e w t h a hour).2.alpha = e.alpha := by
  by_cases hw : windowInvalid w = true
  · rw [cav_from_window_invalid e w t h a hour hw]
    refine ⟨?_, hinv, rfl⟩
    intro r hr
    cases hr
    refine ⟨le_refl 0, by norm_num [failSafeResult], le_refl 0,
      by norm_num [failSafeResult]⟩
  · obtain ⟨hp, hm⟩ := windowValid_split (by
      cases hx : windowInvalid w with
      | false => rfl
      | true => exact absurd hx hw)
    by_cases hov : overlapFrac e.featureNames < 0.8
    · unfold cav_from_window
      rw [if_neg (by simp [hp]), if_neg (by simp [hm]), if_pos hov]
      refine ⟨?_, hinv, rfl⟩
      intro r hr
      cases hr
    · rw [cav_from_window_success e w t h a hour hp hm hov]
      obtain ⟨hn0, hn1⟩ := newSmoothVal_mem e w t h a hour ha0 ha1 hinv
      obtain ⟨hr0, hr1⟩ := clip01_mem (wBio * (1 - e.predict (reindexedVec e w)) +
        wEnv * envComfortOf t h a + wCirc * circadian_factor hour)
      refine ⟨?_, ?_, rfl⟩
      · intro r hr
        cases hr
        obtain ⟨hA, hB⟩ := pyTrunc_scale_bounds hr0 hr1
        obtain ⟨hC, hD⟩ := pyTrunc_scale_bounds hn0 hn1
        exact ⟨hA, hB, hC, hD⟩
      · intro s hs
        simp only [state_from_cav, postFusionEngine] at hs
        injection hs with hs
        rw [← hs]
        exact ⟨hn0, hn1⟩

/-- Witness for C4 at a fresh engine and a concrete valid window. -/
theorem C4_scores_bounded_witness :
    (0 ≤ testEngine.alpha ∧ testEngine.alpha ≤ 1) ∧ smoothInv testEngine ∧
    (∀ r, (cav_from_window testEngine goodWindow (some 22) (some 45) (some 40) 12).1 =
        Except.ok r →
      0 ≤ r.raw ∧ r.raw ≤ 10000 ∧ 0 ≤ r.smooth ∧ r.smooth ≤ 10000) := by
  have ha0 : (0 : ℚ) ≤ testEngine.alpha := by norm_num [testEngine]
  have ha1 : testEngine.alpha ≤ 1 := by norm_num [testEngine]
  have hinv : smoothInv testEngine := by
    intro s hs
    simp [testEngine] at hs
  exact ⟨⟨ha0, ha1⟩, hinv,
    (C4_scores_bounded testEngine goodWindow (some 22) (some 45) (some 40) 12
      ha0 ha1 hinv).1⟩

/-- C5: for a window that passes the length/presence and missing-data
checks, `cav_from_window` raises the schema-mismatch error iff the overlap
— produced feature names occurring in the reference schema over the size of
the schema — is strictly below 0.8; at or above 0.8 it reindexes to the
reference schema (missing columns zero-filled) and proceeds to scoring. -/
theorem C5_schema_mismatch_iff (e : Engine) (w : Window) (t h : Option ℚ)
    (a : Option ℤ) (hour : ℤ)
    (hp : presenceLengthOk w = true) (hm : missingGateFails w = false)
    (hne : e.featureNames ≠ []) :
    ((∃ msg, (cav_from_window e w t h a hour).1 = Except.error msg) ↔
      ((producedFeatureNames.filter fun c => e.featureNames.contains c).length : ℚ) /
        (e.featureNames.length : ℚ) < 0.8) ∧
    (¬ ((producedFeatureNames.filter fun c => e.featureNames.contains c).length : ℚ) /
        (e.featureNames.length : ℚ) < 0.8 →
      ∃ r, (cav_from_window e w t h a hour).1 = Except.ok r ∧
        r.parts.p_stress = e.predict (reindexedVec e w)) := by
  have hlen : 0 < e.featureNames.length := List.length_pos.mpr hne
  have hmax : (max 1 e.featureNames.length) = e.featureNames.length := by omega
  have hfrac : overlapFrac e.featureNames =
      ((producedFeatureNames.filter fun c => e.featureNames.contains c).length : ℚ) /
        (e.featureNames.length : ℚ) := by
    unfold overlapFrac
    rw [hmax]
  constructor
  · constructor
    · rintro ⟨msg, hmsg⟩
      by_contra hno
      have hov : ¬ overlapFrac e.featureNames < 0.8 := by rw [hfrac]; exact hno
      rw [cav_from_window_success e w t h a hour hp hm hov] at hmsg
      cases hmsg
    · intro hlt
      have hov : overlapFrac e.featureNames < 0.8 := by rw [hfrac]; exact hlt
      refine ⟨"schema mismatch: insufficient overlap of expected features", ?_⟩
      unfold cav_from_window
      rw [if_neg (by simp [hp]), if_neg (by simp [hm]), if_pos hov]
  · intro hge
    have hov : ¬ overlapFrac e.featureNames < 0.8 := by rw [hfrac]; exact hge
    rw [cav_from_window_success e w t h a hour hp hm hov]
    exact ⟨_, rfl, rfl⟩

set_option maxRecDepth 4000 in
/-- Witness for C5: the fixture schema overlaps fully, so the call scores
instead of failing. -/
theorem C5_schema_mismatch_iff_witness :
    presenceLengthOk goodWindow = true ∧ missingGateFails goodWindow = false ∧
    testEngine.featureNames ≠ [] ∧
    (∃ r, (cav_from_window testEngine goodWindow none none none 12).1 = Except.ok r ∧
      r.parts.p_stress = testEngine.predict (reindexedVec testEngine goodWindow)) := by
  obtain ⟨hp, hm⟩ := windowValid_split goodWindow_valid
  have hne : testEngine.featureNames ≠ [] := by simp [testEngine]
  have hge : ¬ ((producedFeatureNames.filter fun c =>
      testEngine.featureNames.contains c).length : ℚ) /
        (testEngine.featureNames.length : ℚ) < 0.8 := by
    rw [show (producedFeatureNames.filter fun c =>
      testEngine.featureNames.contains c) = ["EDA_mean"] from by decide]
    norm_num [testEngine]
  exact ⟨hp, hm, hne,
    (C5_schema_mismatch_iff testEngine goodWindow none none none 12 hp hm hne).2 hge⟩

/-- The engine's environmental component agrees with the spec's tiers. -/
theorem envComfortOf_eq_spec (t h : Option ℚ) (a : Option ℤ) :
    envComfortOf t h a = specEnvComfort t h a := by
  cases t <;> cases h <;> cases a <;> rfl

/-- C8: the environmental comfort component of `cav_from_window` is the
neutral 0.5 whenever any of temperature, humidity or AQI is absent
(including partly absent inputs), and otherwise the equal average of the
three tiered sub-scores stated in the spec. -/
theorem C8_env_comfort_component (e : Engine) (w : Window) (t h : Option ℚ)
    (a : Option ℤ) (hour : ℤ)
    (hp : presenceLengthOk w = true) (hm : missingGateFails w = false)
    (hov : ¬ overlapFrac e.featureNames < 0.8) :
    ((t = none ∨ h = none ∨ a = none) → envComfortOf t h a = 0.5) ∧
    (∀ tv hv av, t = some tv → h = some hv → a = some av →
      envComfortOf t h a =
        (specTempScore tv + specHumScore hv + specAqiScore av) / 3) ∧
    ∃ r, (cav_from_window e w t h a hour).1 = Except.ok r ∧
      r.parts.env = envComfortOf t h a := by
  refine ⟨?absent, ?present, ?call⟩
  case absent =>
    intro habs
    rw [envComfortOf_eq_spec]
    unfold specEnvComfort
    rcases habs with rfl | rfl | rfl
    · cases h <;> cases a <;> rfl
    · cases t <;> cases a <;> rfl
    · cases t <;> cases h <;> rfl
  case present =>
    intro tv hv av ht hh ha
    subst ht; subst hh; subst ha
    rw [envComfortOf_eq_spec]
    rfl
  case call =>
    rw [cav_from_window_success e w t h a hour hp hm hov]
    exact ⟨_, rfl, rfl⟩

/-- Witness for C8 with partial environment data: humidity and AQI present
but temperature absent still yields the neutral 0.5. -/
theorem C8_env_comfort_component_witness :
    presenceLengthOk goodWindow = true ∧ missingGateFails goodWindow = false ∧
    (envComfortOf none (some 45) (some 40) = 0.5) ∧
    ∃ r, (cav_from_window testEngine goodWindow none (some 45) (some 40) 12).1 =
        Except.ok r ∧
      r.parts.env = envComfortOf none (some 45) (some 40) := by
  obtain ⟨hp, hm⟩ := windowValid_split goodWindow_valid
  have hthm := C8_env_comfort_component testEngine goodWindow none (some 45)
    (some 40) 12 hp hm testEngine_overlap
  exact ⟨hp, hm, hthm.1 (Or.inl rfl), hthm.2.2⟩

/-- Membership through `insertByPriority`. -/
theorem mem_insertByPriority (x y : Rec) (l : List Rec) :
    y ∈ insertByPriority x l ↔ y = x ∨ y ∈ l := by
  induction l with
  | nil => simp [insertByPriority]
  | cons z zs ih =>
    unfold insertByPriority
    split_ifs with hz
    · simp only [List.mem_cons, ih]
      tauto
    · simp only [List.mem_cons]

/-- Membership through `sortByPriority`. -/
theorem mem_sortByPriority (y : Rec) (l : List Rec) :
    y ∈ sortByPriority l ↔ y ∈ l := by
  induction l with
  | nil => simp [sortByPriority]
  | cons x xs ih =>
    show y ∈ insertByPriority x (sortByPriority xs) ↔ _
    rw [mem_insertByPriority]
    simp only [List.mem_cons, ih]

/-- `insertByPriority` preserves being sorted by priority. -/
theorem sorted_insertByPriority (x : Rec) (l : List Rec)
    (hl : l.Sorted fun a b => a.priority ≤ b.priority) :
    (insertByPriority x l).Sorted fun a b => a.priority ≤ b.priority := by
  induction l with
  | nil => simp [insertByPriority]
  | cons z zs ih =>
    rw [List.sorted_cons] at hl
    unfold insertByPriority
    split_ifs with hz
    · rw [List.sorted_cons]
      refine ⟨?_, ih hl.2⟩
      intro b hb
      rw [mem_insertByPriority] at hb
      rcases hb with rfl | hb
      · omega
      · exact hl.1 b hb
    · rw [List.sorted_cons]
      refine ⟨?_, List.sorted_cons.mpr hl⟩
      intro b hb
      rcases List.mem_cons.mp hb with rfl | hb
      · omega
      · have := hl.1 b hb
        omega

/-- The output of `sortByPriority` is sorted ascending by priority. -/
theorem sorted_sortByPriority (l : List Rec) :
    (sortByPriority l).Sorted fun a b => a.priority ≤ b.priority := by
  induction l with
  | nil => exact List.sorted_nil
  | cons x xs ih => exact sorted_insertByPriority x _ ih

/-- C9: for every drift, `recommend_for` in state "overload" with
co2 1000 / dBA 60 / lux 600 returns exactly ventilation_increase (1),
reduce_noise (1), dim_lights (2), suggest_break (3) in ascending priority
order; in general the output is sorted ascending by priority, and, in state
"overload", ventilation_increase appears iff co2 ≥ 900, reduce_noise iff
dBA ≥ 55, dim_lights iff lux ≥ 500, and suggest_break always. -/
theorem C9_overload_recommendations :
    (∀ drift : ℚ,
      recommend_for CState.overload drift (some 1000) (some 60) (some 600) =
        [⟨1, "ventilation_increase", 30000⟩, ⟨1, "reduce_noise", 20000⟩,
         ⟨2, "dim_lights", 20000⟩, ⟨3, "suggest_break", 60000⟩]) ∧
    (∀ drift c d l : ℚ,
      ((recommend_for CState.overload drift (some c) (some d) (some l)).Sorted
        fun a b => a.priority ≤ b.priority) ∧
      ("ventilation_increase" ∈
        (recommend_for CState.overload drift (some c) (some d) (some l)).map
          Rec.action ↔ c ≥ 900) ∧
      ("reduce_noise" ∈
        (recommend_for CState.overload drift (some c) (some d) (some l)).map
          Rec.action ↔ d ≥ 55) ∧
      ("dim_lights" ∈
        (recommend_for CState.overload drift (some c) (some d) (some l)).map
          Rec.action ↔ l ≥ 500) ∧
      "suggest_break" ∈
        (recommend_for CState.overload drift (some c) (some d) (some l)).map
          Rec.action) := by
  have hmem : ∀ (s : String) (recs : List Rec),
      s ∈ (sortByPriority recs).map Rec.action ↔ ∃ r ∈ recs, r.action = s := by
    intro s recs
    simp only [List.mem_map]
    constructor
    · rintro ⟨r, hr, hs⟩
      exact ⟨r, (mem_sortByPriority r recs).mp hr, hs⟩
    · rintro ⟨r, hr, hs⟩
      exact ⟨r, (mem_sortByPriority r recs).mpr hr, hs⟩
  constructor
  · intro drift
    show sortByPriority _ = _
    norm_num [envGet, sortByPriority, insertByPriority]
  · intro drift c d l
    refine ⟨sorted_sortByPriority _, ?_, ?_, ?_, ?_⟩
    · rw [show recommend_for CState.overload drift (some c) (some d) (some l) =
        sortByPriority
          ((if envGet (some c) 600 ≥ 900 then [Rec.mk 1 "ventilation_increase" 30000] else []) ++
           (if envGet (some d) 40 ≥ 55 then [Rec.mk 1 "reduce_noise" 20000] else []) ++
           (if envGet (some l) 300 ≥ 500 then [Rec.mk 2 "dim_lights" 20000] else []) ++
           [Rec.mk 3 "suggest_break" 60000]) from rfl, hmem]
      by_cases hc0 : c = 0
      · subst hc0
        simp only [envGet]
        norm_num
        rintro x (⟨-, rfl⟩ | ⟨-, rfl⟩ | rfl) <;> simp
      · have hc : envGet (some c) 600 = c := by simp [envGet, hc0]
        rw [hc]
        by_cases hcc : c ≥ 900 <;>
          split_ifs <;> simp_all
    · rw [show recommend_for CState.overload drift (some c) (some d) (some l) =
        sortByPriority
          ((if envGet (some c) 600 ≥ 900 then [Rec.mk 1 "ventilation_increase" 30000] else []) ++
           (if envGet (some d) 40 ≥ 55 then [Rec.mk 1 "reduce_noise" 20000] else []) ++
           (if envGet (some l) 300 ≥ 500 then [Rec.mk 2 "dim_lights" 20000] else []) ++
           [Rec.mk 3 "suggest_break" 60000]) from rfl, hmem]
      by_cases hd0 : d = 0
      · subst hd0
        simp only [envGet]
        norm_num
        rintro x (⟨-, rfl⟩ | ⟨-, rfl⟩ | rfl) <;> simp
      · have hd : envGet (some d) 40 = d := by simp [envGet, hd0]
        rw [hd]
        by_cases hdd : d ≥ 55 <;>
          split_ifs <;> simp_all
    · rw [show recommend_for CState.overload drift (some c) (some d) (some l) =
        sortByPriority
          ((if envGet (some c) 600 ≥ 900 then [Rec.mk 1 "ventilation_increase" 30000] else []) ++
           (if envGet (some d) 40 ≥ 55 then [Rec.mk 1 "reduce_noise" 20000] else []) ++
           (if envGet (some l) 300 ≥ 500 then [Rec.mk 2 "dim_lights" 20000] else []) ++
           [Rec.mk 3 "suggest_break" 60000]) from rfl, hmem]
      by_cases hl0 : l = 0
      · subst hl0
        simp only [envGet]
        norm_num
        rintro x (⟨-, rfl⟩ | ⟨-, rfl⟩ | rfl) <;> simp
      · have hl : envGet (some l) 300 = l := by simp [envGet, hl0]
        rw [hl]
        by_cases hll : l ≥ 500 <;>
          split_ifs <;> simp_all
    · rw [show recommend_for CState.overload drift (some c) (some d) (some l) =
        sortByPriority
          ((if envGet (some c) 600 ≥ 900 then [Rec.mk 1 "ventilation_increase" 30000] else []) ++
           (if envGet (some d) 40 ≥ 55 then [Rec.mk 1 "reduce_noise" 20000] else []) ++
           (if envGet (some l) 300 ≥ 500 then [Rec.mk 2 "dim_lights" 20000] else []) ++
           [Rec.mk 3 "suggest_break" 60000]) from rfl, hmem]
      refine ⟨Rec.mk 3 "suggest_break" 60000, ?_, rfl⟩
      simp

/-- A steady-state ingestion call (state stays overload, bus already shows
overload) publishes the payload and emits no event. -/
theorem ingest_steady_overload (bus : Bus) (first : Frame) (rest : List Frame)
    (hst : ingestState (driftOf (first :: rest)) = CState.overload)
    (hbus : (get_state bus).map StatePayload.state = some CState.overload) :
    ingest bus (first :: rest) =
      (set_state bus ⟨ingestState (driftOf (first :: rest)),
        driftOf (first :: rest)⟩, none) := by
  simp only [ingest]
  rw [if_neg]
  rintro (⟨hov, hprev⟩ | ⟨hbf, hprev⟩)
  · exact hprev hbus
  · rcases hbf with hb | hf
    · rw [hst] at hb; cases hb
    · rw [hst] at hf; cases hf

/-- An ingestion call that enters overload publishes the payload and emits
an `overload_start` event. -/
theorem ingest_enter_overload (bus : Bus) (first : Frame) (rest : List Frame)
    (hst : ingestState (driftOf (first :: rest)) = CState.overload)
    (hprev : (get_state bus).map StatePayload.state ≠ some CState.overload) :
    ∃ ev : AdaptEvent,
      ingest bus (first :: rest) =
        (set_adapt (set_state bus ⟨ingestState (driftOf (first :: rest)),
          driftOf (first :: rest)⟩) ev, some ev) ∧
      ev.type = AdaptType.overload_start := by
  simp only [ingest]
  rw [if_pos (Or.inl ⟨hst, hprev⟩)]
  refine ⟨_, rfl, ?_⟩
  simp only [if_pos (And.intro hst hprev)]

/-- The published state after `set_adapt` and `set_state`. -/
theorem get_state_after_publish (bus : Bus) (p : StatePayload) (ev : AdaptEvent) :
    (get_state (set_adapt (set_state bus p) ev)).map StatePayload.state =
      some p.state := rfl

/-- Steady overload batches emit no events at all. -/
theorem ingestRun_steady (bus : Bus) (batches : List (List Frame))
    (hbus : (get_state bus).map StatePayload.state = some CState.overload)
    (hall : ∀ fs ∈ batches, fs ≠ [] ∧ ingestState (driftOf fs) = CState.overload) :
    (ingestRun bus batches).2 = List.replicate batches.length none := by
  induction batches generalizing bus with
  | nil => rfl
  | cons fs rest ih =>
    obtain ⟨hne, hst⟩ := hall fs (List.mem_cons_self fs rest)
    cases fs with
    | nil => exact absurd rfl hne
    | cons first frest =>
      show ((ingest bus (first :: frest)).snd ::
        (ingestRun (ingest bus (first :: frest)).fst rest).snd) = _
      rw [ingest_steady_overload bus first frest hst hbus]
      have hbus' : (get_state (set_state bus
          ⟨ingestState (driftOf (first :: frest)), driftOf (first :: frest)⟩)).map
            StatePayload.state = some CState.overload := by
        simp [get_state, set_state, hst]
      rw [List.length_cons, List.replicate_succ,
        ← ih _ hbus' fun g hg => hall g (List.mem_cons_of_mem _ hg)]

/-- A non-crossing ingestion call publishes the payload and emits no
event. -/
theorem ingest_no_crossing (bus : Bus) (first : Frame) (rest : List Frame)
    (hnc : ¬ ((ingestState (driftOf (first :: rest)) = CState.overload ∧
        (get_state bus).map StatePayload.state ≠ some CState.overload) ∨
      ((ingestState (driftOf (first :: rest)) = CState.balanced ∨
        ingestState (driftOf (first :: rest)) = CState.focus) ∧
        (get_state bus).map StatePayload.state = some CState.overload))) :
    ingest bus (first :: rest) =
      (set_state bus ⟨ingestState (driftOf (first :: rest)),
        driftOf (first :: rest)⟩, none) := by
  simp only [ingest]
  rw [if_neg hnc]

/-- A crossing ingestion call publishes the payload and the event. -/
theorem ingest_crossing (bus : Bus) (first : Frame) (rest : List Frame)
    (hc : (ingestState (driftOf (first :: rest)) = CState.overload ∧
        (get_state bus).map StatePayload.state ≠ some CState.overload) ∨
      ((ingestState (driftOf (first :: rest)) = CState.balanced ∨
        ingestState (driftOf (first :: rest)) = CState.focus) ∧
        (get_state bus).map StatePayload.state = some CState.overload)) :
    ingest bus (first :: rest) =
      (set_adapt (set_state bus ⟨ingestState (driftOf (first :: rest)),
          driftOf (first :: rest)⟩)
        ⟨(if ingestState (driftOf (first :: rest)) = CState.overload ∧
            (get_state bus).map StatePayload.state ≠ some CState.overload
          then AdaptType.overload_start else AdaptType.overload_clear),
         ingestState (driftOf (first :: rest)), driftOf (first :: rest),
         recommend_for (ingestState (driftOf (first :: rest)))
           (driftOf (first :: rest)) first.co2 first.dba first.lux⟩,
       some ⟨(if ingestState (driftOf (first :: rest)) = CState.overload ∧
            (get_state bus).map StatePayload.state ≠ some CState.overload
          then AdaptType.overload_start else AdaptType.overload_clear),
         ingestState (driftOf (first :: rest)), driftOf (first :: rest),
         recommend_for (ingestState (driftOf (first :: rest)))
           (driftOf (first :: rest)) first.co2 first.dba first.lux⟩) := by
  simp only [ingest]
  rw [if_pos hc]

/-- C7: the ingestion endpoint publishes an `AdaptEvent` iff the computed
state crosses the overload boundary relative to the previously published
bus state — entering overload from non-overload (`overload_start`) or
moving to balanced/focus from overload (`overload_clear`) — and a sequence
of ingestion calls that all compute overload, starting from a bus not
showing overload, emits exactly one `overload_start`, at the first call. -/
theorem C7_adapt_event_on_edges (bus : Bus) (frames : List Frame)
    (batches : List (List Frame)) :
    (frames ≠ [] →
      (((ingest bus frames).2.isSome = true) ↔
        ((ingestState (driftOf frames) = CState.overload ∧
          (get_state bus).map StatePayload.state ≠ some CState.overload) ∨
         ((ingestState (driftOf frames) = CState.balanced ∨
           ingestState (driftOf frames) = CState.focus) ∧
          (get_state bus).map StatePayload.state = some CState.overload))) ∧
      (∀ ev, (ingest bus frames).2 = some ev →
        (ev.type = AdaptType.overload_start ↔
          (ingestState (driftOf frames) = CState.overload ∧
            (get_state bus).map StatePayload.state ≠ some CState.overload)))) ∧
    ((∀ fs ∈ batches, fs ≠ [] ∧ ingestState (driftOf fs) = CState.overload) →
      (get_state bus).map StatePayload.state ≠ some CState.overload →
      batches ≠ [] →
      ∃ ev, (ingestRun bus batches).2 =
          some ev :: List.replicate (batches.length - 1) none ∧
        ev.type = AdaptType.overload_start) := by
  constructor
  · intro hne
    cases frames with
    | nil => exact absurd rfl hne
    | cons first rest =>
      constructor
      · by_cases hcross : (ingestState (driftOf (first :: rest)) = CState.overload ∧
            (get_state bus).map StatePayload.state ≠ some CState.overload) ∨
            ((ingestState (driftOf (first :: rest)) = CState.balanced ∨
              ingestState (driftOf (first :: rest)) = CState.focus) ∧
              (get_state bus).map StatePayload.state = some CState.overload)
        · refine iff_of_true ?_ hcross
          rw [ingest_crossing bus first rest hcross]
          rfl
        · refine iff_of_false ?_ hcross
          rw [ingest_no_crossing bus first rest hcross]
          simp
      · intro ev hev
        by_cases hcross : (ingestState (driftOf (first :: rest)) = CState.overload ∧
            (get_state bus).map StatePayload.state ≠ some CState.overload) ∨
            ((ingestState (driftOf (first :: rest)) = CState.balanced ∨
              ingestState (driftOf (first :: rest)) = CState.focus) ∧
              (get_state bus).map StatePayload.state = some CState.overload)
        · rw [ingest_crossing bus first rest hcross] at hev
          simp only [Prod.snd, Option.some.injEq] at hev
          subst hev
          by_cases hent : ingestState (driftOf (first :: rest)) = CState.overload ∧
            (get_state bus).map StatePayload.state ≠ some CState.overload
          · refine iff_of_true ?_ hent
            show (if _ then _ else _) = _
            rw [if_pos hent]
          · refine iff_of_false ?_ hent
            show ¬ (if _ then _ else _) = _
            rw [if_neg hent]
            simp
        · rw [ingest_no_crossing bus first rest hcross] at hev
          simp at hev
  · intro hall hbus hne
    cases batches with
    | nil => exact absurd rfl hne
    | cons fs rest =>
      obtain ⟨hfne, hfst⟩ := hall fs (List.mem_cons_self fs rest)
      cases fs with
      | nil => exact absurd rfl hfne
      | cons first frest =>
        obtain ⟨ev, hcall, htype⟩ := ingest_enter_overload bus first frest hfst hbus
        refine ⟨ev, ?_, htype⟩
        show ((ingest bus (first :: frest)).snd ::
          (ingestRun (ingest bus (first :: frest)).fst rest).snd) = _
        rw [hcall, hfst]
        have hbus' := get_state_after_publish bus
          ⟨CState.overload, driftOf (first :: frest)⟩ ev
        rw [ingestRun_steady _ rest hbus'
          fun g hg => hall g (List.mem_cons_of_mem _ hg)]
        simp

/-- A bus on which nothing has been published yet. -/
def busEmpty : Bus := ⟨none, none⟩

/-- A frame whose CO2 reading drives the drift heuristic into overload. -/
def highFrame : Frame := ⟨some 1400, none, none⟩

/-- The fixture frame computes state overload. -/
theorem highFrame_overload : ingestState (driftOf [highFrame]) = CState.overload := by
  have hdrift : driftOf [highFrame] = 0.7 := by
    unfold driftOf avgCo2 avgDba highFrame
    norm_num [List.filterMap, round2, roundHalfEven]
  rw [ingestState, hdrift]
  norm_num

/-- Witness for C7: two consecutive overload batches on a fresh bus emit
exactly one `overload_start`, at the first call. -/
theorem C7_adapt_event_on_edges_witness :
    (∀ fs ∈ [[highFrame], [highFrame]],
      fs ≠ [] ∧ ingestState (driftOf fs) = CState.overload) ∧
    (get_state busEmpty).map StatePayload.state ≠ some CState.overload ∧
    ∃ ev, (ingestRun busEmpty [[highFrame], [highFrame]]).2 = [some ev, none] ∧
      ev.type = AdaptType.overload_start := by
  have hall : ∀ fs ∈ [[highFrame], [highFrame]],
      fs ≠ [] ∧ ingestState (driftOf fs) = CState.overload := by
    intro fs hfs
    rcases List.mem_cons.mp hfs with rfl | hfs
    · exact ⟨by simp, highFrame_overload⟩
    · rcases List.mem_cons.mp hfs with rfl | hfs
      · exact ⟨by simp, highFrame_overload⟩
      · cases hfs
  have hbus : (get_state busEmpty).map StatePayload.state ≠ some CState.overload := by
    simp [get_state, busEmpty]
  exact ⟨hall, hbus,
    (C7_adapt_event_on_edges busEmpty [highFrame] [[highFrame], [highFrame]]).2
      hall hbus (by simp)⟩

/-- C6 counterexample: a strict-mode batch whose single feature-map item
overlaps the reference schema at 100% (well above 80%) is still reported
`ok:false` — with the "inference not yet supported" error — not scored
successfully as the claim states. -/
theorem C6_counterexample_full_overlap_not_scored :
    ¬ fmapOverlapFrac EXPECTED EXPECTED < 0.8 ∧
    cav_batch_fmaps EXPECTED true false [EXPECTED] =
      Except.ok [⟨false,
        some "Feature map inference not yet supported - engine requires raw windows",
        none, none, none⟩] := by
  have hfrac : fmapOverlapFrac EXPECTED EXPECTED = 1 := by
    simp only [fmapOverlapFrac]
    rw [show (EXPECTED.filter fun k =>
      (EXPECTED.map lowerStr).contains (lowerStr k)) = EXPECTED from by decide]
    norm_num [EXPECTED]
  have hge : ¬ fmapOverlapFrac EXPECTED EXPECTED < 0.8 := by
    rw [hfrac]; norm_num
  refine ⟨hge, ?_⟩
  unfold cav_batch_fmaps
  rw [if_neg (by decide), if_neg (by decide)]
  show Except.ok [fmapItemResult EXPECTED false EXPECTED] = _
  unfold fmapItemResult
  rw [if_neg hge]

/-- C6 (amended): in the batch endpoint with strict mode on and relaxed
mode off, a feature-map item whose keys overlap the engine's reference
schema below 80% is reported as a failed item (`ok:false`, guard error
string); an item at or above 80% passes the schema guard but is likewise
reported `ok:false` with the "Feature map inference not yet supported"
error, because feature-map scoring is unimplemented and the engine requires
raw windows. -/
theorem C6_strict_fmap_items_fail (featureNames : List String)
    (keys : List String) (items : List (List String)) :
    (fmapOverlapFrac featureNames keys < 0.8 →
      fmapItemResult featureNames false keys =
        ⟨false, some "400: Feature mismatch: overlap below 80 percent",
          none, none, none⟩) ∧
    (¬ fmapOverlapFrac featureNames keys < 0.8 →
      fmapItemResult featureNames false keys =
        ⟨false,
          some "Feature map inference not yet supported - engine requires raw windows",
          none, none, none⟩) ∧
    (items ≠ [] → guardMissing items = [] →
      cav_batch_fmaps featureNames true false items =
        Except.ok (items.map (fmapItemResult featureNames false))) := by
  refine ⟨?lt, ?ge, ?batch⟩
  case lt =>
    intro hlt
    unfold fmapItemResult
    rw [if_pos hlt, if_neg (by simp)]
  case ge =>
    intro hge
    unfold fmapItemResult
    rw [if_neg hge]
  case batch =>
    intro hne hguard
    unfold cav_batch_fmaps
    rw [if_neg (by simp [List.isEmpty_iff, hne]), if_neg (by simp [hguard])]

/-- Witness for the amended C6 at concrete schemas: one item far below the
overlap threshold fails with the guard error; a full batch of full-overlap
items still yields per-item results. -/
theorem C6_strict_fmap_items_fail_witness :
    fmapOverlapFrac EXPECTED ["eda_mean"] < 0.8 ∧
    fmapItemResult EXPECTED false ["eda_mean"] =
      ⟨false, some "400: Feature mismatch: overlap below 80 percent",
        none, none, none⟩ ∧
    cav_batch_fmaps EXPECTED true false [EXPECTED] =
      Except.ok ([EXPECTED].map (fmapItemResult EXPECTED false)) := by
  have hlt : fmapOverlapFrac EXPECTED ["eda_mean"] < 0.8 := by
    simp only [fmapOverlapFrac]
    rw [show (EXPECTED.filter fun k =>
      ((["eda_mean"].map lowerStr).contains (lowerStr k))) = ["eda_mean"] from by decide]
    norm_num [EXPECTED]
  exact ⟨hlt,
    (C6_strict_fmap_items_fail EXPECTED ["eda_mean"] [EXPECTED]).1 hlt,
    (C6_strict_fmap_items_fail EXPECTED ["eda_mean"] [EXPECTED]).2.2
      (by simp) (by decide)⟩

end Edon
